import Mathlib

/-!
Verification development for the use-context module: a scoped undo mechanism
that snapshots mutable targets on entry to a scope and restores them on exit.

The embedding models Python attribute storage and dict objects as association
lists from attribute names (String) to values, Python lists as Lean lists,
and Python sets as lists observed up to membership.  Object identity is
modelled by numeric ids; name bindings in a stack frame map names to the id
of the bound object.
-/

/-- Values stored in containers and attributes. -/
abbrev Val := Int

/-- Association list keyed by attribute or dictionary name. -/
abbrev AMap (α : Type) := List (String × α)

/-- Attribute storage or dict contents of a target object. -/
abbrev AttrMap := AMap Val

/-- Lookup of a key: the first binding wins (storage holds at most one entry
per name, mirroring dict and attribute semantics). -/
def alookup {α : Type} : AMap α → String → Option α
  | [], _ => none
  | (k, v) :: rest, x => if x = k then some v else alookup rest x

/-- Key set of the storage, in entry order. -/
def akeys {α : Type} (m : AMap α) : List String :=
  m.map Prod.fst

/-- Write a binding: replace the first entry with this key, or append a new
entry (mirrors dict item assignment and setattr). -/
def aset {α : Type} : AMap α → String → α → AMap α
  | [], k, v => [(k, v)]
  | (k1, v1) :: rest, k, v =>
    if k1 = k then (k, v) :: rest else (k1, v1) :: aset rest k v

/-- Remove the binding for a key (mirrors delattr; storage holds at most one
entry per name, so removing every occurrence is the same operation). -/
def adel {α : Type} : AMap α → String → AMap α
  | [], _ => []
  | (k1, v1) :: rest, k =>
    if k1 = k then adel rest k else (k1, v1) :: adel rest k

/-- Bulk write of every binding of the second storage into the first, in
entry order (mirrors dict.update). -/
def aupdate {α : Type} : AMap α → AMap α → AMap α
  | cur, [] => cur
  | cur, (k, v) :: rest => aupdate (aset cur k v) rest

/-- Python dict equality: the two storages bind exactly the same keys to
equal values. -/
def aeq {α : Type} [DecidableEq α] (m1 m2 : AMap α) : Bool :=
  (akeys m1 ++ akeys m2).all fun k => decide (alookup m1 k = alookup m2 k)

/-- The keys of the storage are pairwise distinct (true of every real dict
and of every attribute storage). -/
def nodupKeys {α : Type} (m : AMap α) : Bool :=
  decide (akeys m).Nodup

/-- Every key of the storage belongs to the given name list. -/
def onlyKeys {α : Type} (names : List String) (m : AMap α) : Bool :=
  m.all fun p => decide (p.1 ∈ names)

theorem akeys_cons {α : Type} (k : String) (v : α) (rest : AMap α) :
    akeys ((k, v) :: rest) = k :: akeys rest := rfl

theorem alookup_aset {α : Type} (m : AMap α) (k : String) (v : α) (x : String) :
    alookup (aset m k v) x = if x = k then some v else alookup m x := by
  induction m with
  | nil => simp [aset, alookup]
  | cons p rest ih =>
    obtain ⟨k1, v1⟩ := p
    by_cases h1 : k1 = k
    · subst h1
      by_cases hx : x = k1
      · subst hx; simp [aset, alookup]
      · simp [aset, alookup, hx]
    · by_cases hx : x = k1
      · subst hx
        simp [aset, alookup, h1]
      · simp [aset, alookup, h1, hx, ih]

theorem alookup_adel {α : Type} (m : AMap α) (k : String) (x : String) :
    alookup (adel m k) x = if x = k then none else alookup m x := by
  induction m with
  | nil => simp [adel, alookup]
  | cons p rest ih =>
    obtain ⟨k1, v1⟩ := p
    by_cases h1 : k1 = k
    · subst h1
      by_cases hx : x = k1
      · subst hx; simp [adel, alookup, ih]
      · simp [adel, alookup, hx, ih]
    · by_cases hx : x = k1
      · subst hx
        simp [adel, alookup, h1]
      · simp [adel, alookup, h1, hx, ih]

theorem alookup_eq_none_of_not_mem_akeys {α : Type} (m : AMap α) (x : String)
    (hx : x ∉ akeys m) : alookup m x = none := by
  induction m with
  | nil => rfl
  | cons p rest ih =>
    obtain ⟨k1, v1⟩ := p
    simp [akeys] at hx
    simp [alookup, hx.1, ih (by simpa [akeys] using hx.2)]

theorem alookup_aupdate {α : Type} (s : AMap α) (hs : (akeys s).Nodup) :
    ∀ (cur : AMap α) (x : String),
      alookup (aupdate cur s) x =
        if x ∈ akeys s then alookup s x else alookup cur x := by
  induction s with
  | nil => intro cur x; simp [aupdate, akeys]
  | cons p rest ih =>
    obtain ⟨k, v⟩ := p
    intro cur x
    rw [akeys_cons, List.nodup_cons] at hs
    have hrest := ih hs.2 (aset cur k v) x
    rw [show aupdate cur ((k, v) :: rest) = aupdate (aset cur k v) rest from rfl,
      hrest, akeys_cons]
    by_cases hxr : x ∈ akeys rest
    · have hxk : x ≠ k := fun h => hs.1 (h ▸ hxr)
      rw [if_pos hxr, if_pos (List.mem_cons_of_mem _ hxr)]
      simp [alookup, hxk]
    · by_cases hxk : x = k
      · subst hxk
        rw [if_neg hxr, if_pos (List.mem_cons_self _ _), alookup_aset]
        simp [alookup]
      · rw [if_neg hxr, if_neg (by simp [hxk, hxr]), alookup_aset, if_neg hxk]

theorem aeq_refl {α : Type} [DecidableEq α] (m : AMap α) : aeq m m = true := by
  simp [aeq, List.all_eq_true]

theorem aeq_iff_alookup_eq {α : Type} [DecidableEq α] (m1 m2 : AMap α) :
    aeq m1 m2 = true ↔ ∀ x, alookup m1 x = alookup m2 x := by
  constructor
  · intro h x
    rw [aeq, List.all_eq_true] at h
    by_cases h1 : x ∈ akeys m1
    · exact of_decide_eq_true (h x (by simp [h1]))
    · by_cases h2 : x ∈ akeys m2
      · exact of_decide_eq_true (h x (by simp [h2]))
      · rw [alookup_eq_none_of_not_mem_akeys m1 x h1,
          alookup_eq_none_of_not_mem_akeys m2 x h2]
  · intro h
    rw [aeq, List.all_eq_true]
    intro x _
    exact decide_eq_true (h x)

theorem onlyKeys_alookup {α : Type} (names : List String) (m : AMap α)
    (hm : onlyKeys names m = true) (x : String) (hx : x ∉ names) :
    alookup m x = none := by
  induction m with
  | nil => rfl
  | cons p rest ih =>
    obtain ⟨k1, v1⟩ := p
    rw [onlyKeys, List.all_cons, Bool.and_eq_true] at hm
    have h1 : k1 ∈ names := of_decide_eq_true hm.1
    have hxk : x ≠ k1 := fun h => hx (h ▸ h1)
    simp only [alookup, hxk, if_false]
    exact ih hm.2

/-- Set membership insert: add an element if absent (one step of set.update). -/
def sinsert (m : List Val) (v : Val) : List Val :=
  if v ∈ m then m else m ++ [v]

/-- Bulk insert of every element of the second set into the first (mirrors
set.update, which unions elements into the receiver). -/
def supdate : List Val → List Val → List Val
  | cur, [] => cur
  | cur, v :: rest => supdate (sinsert cur v) rest

/-- Python set equality: same membership. -/
def seteq (m1 m2 : List Val) : Bool :=
  (m1.all fun v => decide (v ∈ m2)) && (m2.all fun v => decide (v ∈ m1))

theorem mem_sinsert (m : List Val) (v x : Val) :
    x ∈ sinsert m v ↔ x ∈ m ∨ x = v := by
  by_cases h : v ∈ m
  · simp only [sinsert, if_pos h]
    constructor
    · exact Or.inl
    · rintro (hx | rfl)
      · exact hx
      · exact h
  · simp [sinsert, if_neg h]

theorem mem_supdate (s : List Val) :
    ∀ (cur : List Val) (x : Val), x ∈ supdate cur s ↔ x ∈ cur ∨ x ∈ s := by
  induction s with
  | nil => intro cur x; simp [supdate]
  | cons v rest ih =>
    intro cur x
    rw [show supdate cur (v :: rest) = supdate (sinsert cur v) rest from rfl,
      ih, mem_sinsert]
    simp only [List.mem_cons]
    tauto

/-- Source class _List, method get_state: return self.target.copy().  The
snapshot is a shallow copy, so as a value it is the current list contents. -/
def List_get_state (target : List Val) : List Val :=
  target

/-- Source class _List, method rollback: self.target[:] = self.state replaces
the whole contents of the tracked list in place with the snapshot. -/
def List_rollback (state : List Val) (target : List Val) : List Val :=
  state

/-- Inherited _IRollbackable.is_changed: self.state != self.get_state(),
where != on lists is elementwise value inequality. -/
def List_is_changed (state : List Val) (target : List Val) : Bool :=
  decide (state ≠ List_get_state target)

/-- Source class _GenericContainer (exact types set, dict, defaultdict and
any structural match), method get_state: self.target.copy(). -/
def GenericContainer_get_state (target : AttrMap) : AttrMap :=
  target

/-- Source class _GenericContainer, method rollback:
self.target.clear() then self.target.update(self.state). -/
def GenericContainer_rollback (state : AttrMap) (target : AttrMap) : AttrMap :=
  aupdate [] state

/-- Inherited is_changed for _GenericContainer: dict value inequality of the
snapshot against the freshly read state. -/
def GenericContainer_is_changed (state : AttrMap) (target : AttrMap) : Bool :=
  !(aeq state (GenericContainer_get_state target))

/-- _GenericContainer on a set target: get_state is self.target.copy(). -/
def Set_get_state (target : List Val) : List Val :=
  target

/-- _GenericContainer on a set target: rollback clears the set then updates
(unions) it from the snapshot. -/
def Set_rollback (state : List Val) (target : List Val) : List Val :=
  supdate [] state

/-- Inherited is_changed for a set target: set value inequality. -/
def Set_is_changed (state : List Val) (target : List Val) : Bool :=
  !(seteq state (Set_get_state target))

/-- Shared shape of _DataClass.get_state and _Slots.get_state: walk the
declared names, record each attribute that is present, skip the absent ones
(the AttributeError is caught). -/
def getAttrStateBy : List String → AttrMap → AttrMap
  | [], _ => []
  | a :: rest, target =>
    match alookup target a with
    | some v => (a, v) :: getAttrStateBy rest target
    | none => getAttrStateBy rest target

/-- Shared shape of _DataClass.rollback and _Slots.rollback: for each declared
name, set the attribute to the snapshot value when the snapshot has one,
otherwise delete the attribute if it is currently present. -/
def restoreAttrsBy : List String → AttrMap → AttrMap → AttrMap
  | [], _, target => target
  | a :: rest, state, target =>
    match alookup state a with
    | some v => restoreAttrsBy rest state (aset target a v)
    | none =>
      if (alookup target a).isSome then restoreAttrsBy rest state (adel target a)
      else restoreAttrsBy rest state target

/-- Source class _DataClass, method get_state over the declared field list. -/
def DataClass_get_state (fields : List String) (target : AttrMap) : AttrMap :=
  getAttrStateBy fields target

/-- Source class _DataClass, method rollback over the declared field list. -/
def DataClass_rollback (fields : List String) (state : AttrMap)
    (target : AttrMap) : AttrMap :=
  restoreAttrsBy fields state target

/-- Inherited is_changed for _DataClass: dict value inequality of the captured
field map against the recomputed field map. -/
def DataClass_is_changed (fields : List String) (state : AttrMap)
    (target : AttrMap) : Bool :=
  !(aeq state (DataClass_get_state fields target))

/-- Source class _Slots, method get_state over the union of declared slots. -/
def Slots_get_state (attrs : List String) (target : AttrMap) : AttrMap :=
  getAttrStateBy attrs target

/-- Source class _Slots, method rollback over the union of declared slots. -/
def Slots_rollback (attrs : List String) (state : AttrMap)
    (target : AttrMap) : AttrMap :=
  restoreAttrsBy attrs state target

/-- Inherited is_changed for _Slots: dict value inequality of the captured
per-slot map against the recomputed per-slot map. -/
def Slots_is_changed (attrs : List String) (state : AttrMap)
    (target : AttrMap) : Bool :=
  !(aeq state (Slots_get_state attrs target))

/-- A state-protocol target: an object holding an opaque exported state, whose
get_state returns it and whose from_state replaces it. -/
structure StateObj where
  exported : Val
deriving DecidableEq

/-- Source class _State, method get_state: self.target.get_state(). -/
def State_get_state (target : StateObj) : Val :=
  target.exported

/-- Source class _State, method rollback: self.target.from_state(self.state). -/
def State_rollback (state : Val) (target : StateObj) : StateObj :=
  { exported := state }

/-- Inherited is_changed for _State: value inequality of the two exported
states. -/
def State_is_changed (state : Val) (target : StateObj) : Bool :=
  decide (state ≠ State_get_state target)

/-- An attribute-bag object: per-instance attribute dictionary plus a flag
modelling an overridden equality method on the object itself (true means the
object claims equality with everything). -/
structure BagObj where
  attrs : AttrMap
  eqAlways : Bool
deriving DecidableEq

/-- What the equality operator of the object itself would answer, honouring an
overridden equality method. -/
def BagObj_py_eq (a b : BagObj) : Bool :=
  a.eqAlways || b.eqAlways || aeq a.attrs b.attrs

/-- Source class _RollbackableProxy wrapping _GenericContainer(vars(item)):
get_state reads a copy of the attribute dictionary. -/
def RollbackableProxy_get_state (target : BagObj) : AttrMap :=
  GenericContainer_get_state target.attrs

/-- _RollbackableProxy.rollback delegates to the wrapped _GenericContainer,
which clears the attribute dictionary and updates it from the snapshot. -/
def RollbackableProxy_rollback (state : AttrMap) (target : BagObj) : BagObj :=
  { target with attrs := GenericContainer_rollback state target.attrs }

/-- _RollbackableProxy.is_changed delegates to the wrapped _GenericContainer,
so it compares attribute dictionaries and never consults the overridden equality
method of the target object. -/
def RollbackableProxy_is_changed (state : AttrMap) (target : BagObj) : Bool :=
  GenericContainer_is_changed state target.attrs

/-- A slotted object: per-slot attribute storage plus a flag modelling an
overridden equality method on the object itself. -/
structure SlotObj where
  storage : AttrMap
  eqAlways : Bool
deriving DecidableEq

/-- What the equality operator of the slotted object itself would answer. -/
def SlotObj_py_eq (a b : SlotObj) : Bool :=
  a.eqAlways || b.eqAlways || aeq a.storage b.storage

/-- _Slots.is_changed applied to a slotted object: compares the captured
per-slot map with the recomputed one, never the equality method of the object itself. -/
def Slots_is_changed_on (attrs : List String) (state : AttrMap)
    (target : SlotObj) : Bool :=
  Slots_is_changed attrs state target.storage

/-- Python types relevant to dispatch.  A user-defined class carries its name
and its base class, so a subclass of a builtin is a distinct type value from
the builtin itself (membership tests by exact type identity reject it). -/
inductive PyTy where
  | pyobject
  | pybool
  | pyint
  | pyfloat
  | pycomplex
  | pydecimal
  | pystr
  | pytuple
  | pyfrozenset
  | pylist
  | pyset
  | pydict
  | pydefaultdict
  | pycls (name : String) (base : PyTy)
deriving DecidableEq

/-- The module-level _Immutable frozenset of types: bool, int, float, complex,
decimal.Decimal, str, tuple, frozenset. -/
def _Immutable : List PyTy :=
  [.pybool, .pyint, .pyfloat, .pycomplex, .pydecimal, .pystr, .pytuple,
    .pyfrozenset]

/-- The concrete _IRollbackable subclasses, as registered by
module definition order in _IRollbackable.all_subclass. -/
inductive RBClass where
  | rbList
  | rbDataClass
  | rbGenericContainer
  | rbState
  | rbSlots
  | rbProxy
deriving DecidableEq

/-- _IRollbackable.type_map, built by the subclass-registration hook from the
class-level types tuples: list maps to _List; set, dict and defaultdict map to
_GenericContainer.  Lookup is by exact type. -/
def type_map : PyTy → Option RBClass
  | .pylist => some .rbList
  | .pyset => some .rbGenericContainer
  | .pydict => some .rbGenericContainer
  | .pydefaultdict => some .rbGenericContainer
  | _ => none

/-- _IRollbackable.all_subclass in module definition order: _List, _DataClass,
_GenericContainer, _State, _Slots, _RollbackableProxy. -/
def all_subclass : List RBClass :=
  [.rbList, .rbDataClass, .rbGenericContainer, .rbState, .rbSlots, .rbProxy]

/-- One entry of the method-resolution-order slot declarations of a type: either a
lone string (flattened to a one-element tuple) or a tuple of names; a class
without a declared slots attribute contributes the empty tuple. -/
inductive SlotsDecl where
  | single (s : String)
  | names (l : List String)
deriving DecidableEq

/-- The names contributed by one slots declaration. -/
def slots_decl_names : SlotsDecl → List String
  | .single s => [s]
  | .names l => l

/-- Module function _get_slots_attrs: union the slot names declared anywhere
in the ancestor chain of the type into a set, returned as a duplicate-free list. -/
def _get_slots_attrs (mroSlots : List SlotsDecl) : List String :=
  ((mroSlots.map slots_decl_names).flatten).dedup

/-- What vars(item) yields: a per-instance attribute dict, a TypeError (no
attribute dict at all), or a non-dict mapping such as the mappingproxy of a class. -/
inductive VarsResult where
  | hasDict (d : AttrMap)
  | noDict
  | mappingProxy
deriving DecidableEq

/-- The dispatch-relevant description of a tracked item: its exact type, the
structural-protocol probes the source performs on it, the result of vars(),
and the slot declarations along the ancestor chain of its type. -/
structure PyItem where
  cls : PyTy
  is_dataclass : Bool
  hasCopy : Bool
  hasClear : Bool
  hasUpdate : Bool
  hasGetState : Bool
  hasFromState : Bool
  varsRes : VarsResult
  mroSlots : List SlotsDecl
deriving DecidableEq

/-- The has_proto predicate of each _IRollbackable subclass; classes that do
not override it inherit the static method returning False. -/
def has_proto (c : RBClass) (item : PyItem) : Bool :=
  match c with
  | .rbList => false
  | .rbDataClass => item.is_dataclass
  | .rbGenericContainer => item.hasCopy && item.hasClear && item.hasUpdate
  | .rbState => item.hasGetState && item.hasFromState
  | .rbSlots => false
  | .rbProxy => false

/-- Which strategy _Context.track ends up with. -/
inductive Selection where
  | fromRegistry (c : RBClass)
  | fromProto (c : RBClass)
  | proxyDict (d : AttrMap)
  | slots (attrs : List String)
deriving DecidableEq

/-- The outcome of _Context.track: a selected strategy, the immutable-type
TypeError, or the unknown-type TypeError. -/
inductive TrackDecision where
  | selected (s : Selection)
  | errImmutable
  | errUnknownType
deriving DecidableEq

/-- Source method _Context.track, modelled as its strategy decision: check
the immutable set on the exact type, then the exact-type registry, then the
structural pass over all_subclass in order, then the vars() probe (wrap a
per-instance dict with _GenericContainer behind a proxy; fall back to _Slots
when vars raised TypeError; otherwise raise the unknown-type error). -/
def Context_track_select (item : PyItem) : TrackDecision :=
  if item.cls ∈ _Immutable then .errImmutable
  else
    match type_map item.cls with
    | some rb_cls => .selected (.fromRegistry rb_cls)
    | none =>
      match all_subclass.find? (fun c => has_proto c item) with
      | some prbcls => .selected (.fromProto prbcls)
      | none =>
        match item.varsRes with
        | .hasDict d => .selected (.proxyDict d)
        | .noDict => .selected (.slots (_get_slots_attrs item.mroSlots))
        | .mappingProxy => .errUnknownType

/-- A Python object reference: identity (id) plus current content.  Two
objects can be equal in content yet distinct in identity. -/
structure Obj where
  id : Nat
  content : Val
deriving DecidableEq

/-- One active capture held by the scope controller: the tracked target (by
reference) and what the is_changed of the selected variant currently answers. -/
structure TrackedRB where
  target : Obj
  changed : Bool
deriving DecidableEq

/-- A stack frame: the local and free variable names of the code object and the
current local and global bindings, each binding a name to the identity of the
bound object. -/
structure Frame where
  varnames : List String
  freevars : List String
  f_locals : AMap Nat
  f_globals : AMap Nat
deriving DecidableEq

/-- Source class _Ref: a named-reference capture: the tracked name, the
identity of the object bound at tracking start, and whether the name resolved
in the local or the global scope.  (The source also stores the frame object
itself; the embedding passes the current state of the frame explicitly.) -/
structure Ref where
  name : String
  state : Nat
  in_local : Bool
deriving DecidableEq

/-- The error kinds the module raises: the immutable-type TypeError, the
unknown-type TypeError, the KeyError from an unresolvable name, and the
ValueError raised for untracked items and untracked names. -/
inductive PyErr where
  | immutableType
  | unknownType
  | keyError
  | untrackedObject
  | untrackedRef
deriving DecidableEq

/-- _Ref._d: the dictionary the name resolves in, f_locals when the name is
local or free, f_globals otherwise. -/
def Ref_d (r : Ref) (f : Frame) : AMap Nat :=
  if r.in_local then f.f_locals else f.f_globals

/-- Source _Ref.__init__: decide locality from the varnames and freevars of
the code object, then read the current binding; an unbound name raises
KeyError before any capture is recorded. -/
def Ref_mk (f : Frame) (name : String) : Except PyErr Ref :=
  let in_local := name ∈ f.varnames ++ f.freevars
  let d := if in_local then f.f_locals else f.f_globals
  match alookup d name with
  | some v => .ok { name := name, state := v, in_local := in_local }
  | none => .error .keyError

/-- Source _Ref.is_changed: the live binding is compared against the captured
one with an identity comparison (is not), never by content. -/
def Ref_is_changed (r : Ref) (f : Frame) : Except PyErr Bool :=
  match alookup (Ref_d r f) r.name with
  | some v => .ok (decide (v ≠ r.state))
  | none => .error .keyError

/-- Source _Ref.rollback: write the original binding back into the resolved
scope.  For a local binding the source then forces the fast-local
storage to resynchronize with the dictionary write (PyFrame_LocalsToFast);
the embedding models the write as directly effective. -/
def Ref_rollback (r : Ref) (f : Frame) : Frame :=
  if r.in_local then { f with f_locals := aset f.f_locals r.name r.state }
  else { f with f_globals := aset f.f_globals r.name r.state }

/-- Source class _Context: the ordered list of active captures and the ordered
list of active reference captures. -/
structure Context where
  _tracked : List TrackedRB
  _ref_tracked : List Ref
deriving DecidableEq

/-- One restore performed during rollback: the rollback of either a capture or a
reference capture. -/
inductive RollbackEvent where
  | rb (t : TrackedRB)
  | ref (r : Ref)
deriving DecidableEq

/-- The while-pop loop of _Context.rollback: repeatedly pop the last element
and roll it back until the list is empty.  The fuel argument only bounds the
iteration count; the initial length is always enough fuel because each pop
removes exactly one element. -/
def drainFuel {α : Type} : Nat → List α → List α
  | 0, _ => []
  | _ + 1, [] => []
  | n + 1, x :: xs =>
    (x :: xs).getLast (List.cons_ne_nil x xs) :: drainFuel n (x :: xs).dropLast

/-- The order in which one while-pop loop rolls elements back. -/
def drain {α : Type} (l : List α) : List α :=
  drainFuel l.length l

theorem drainFuel_eq_reverse {α : Type} :
    ∀ (n : Nat) (l : List α), l.length ≤ n → drainFuel n l = l.reverse := by
  intro n
  induction n with
  | zero =>
    intro l hl
    rw [Nat.le_zero, List.length_eq_zero] at hl
    subst hl; rfl
  | succ n ih =>
    intro l hl
    match l with
    | [] => rfl
    | x :: xs =>
      have hdrop : (x :: xs).dropLast.length ≤ n := by
        rw [List.length_dropLast]
        simpa using Nat.le_of_succ_le_succ hl
      rw [show drainFuel (n + 1) (x :: xs) =
          (x :: xs).getLast (List.cons_ne_nil x xs) ::
            drainFuel n (x :: xs).dropLast from rfl,
        ih _ hdrop]
      conv_rhs =>
        rw [← List.dropLast_append_getLast (List.cons_ne_nil x xs)]
      rw [List.reverse_append]
      rfl

theorem drain_eq_reverse {α : Type} (l : List α) : drain l = l.reverse :=
  drainFuel_eq_reverse l.length l (Nat.le_refl _)

/-- Source _Context.rollback: drain the capture list from its end, rolling
each capture back, then drain the reference-capture list the same way.  The
result is the ordered trace of restores plus the context afterwards (both
lists empty). -/
def Context_rollback (c : Context) : List RollbackEvent × Context :=
  ((drain c._tracked).map .rb ++ (drain c._ref_tracked).map .ref,
    { _tracked := [], _ref_tracked := [] })

/-- Source _Context.__exit__(self, *_): it calls self.rollback() once and
returns None (so the with statement never sees a truthy suppression value).
The trace of the one rollback call is returned alongside. -/
def Context_exit (c : Context) : (List RollbackEvent × Context) × Option Bool :=
  (Context_rollback c, none)

/-- Python truthiness of an __exit__ return value. -/
def truthy : Option Bool → Bool
  | none => false
  | some b => b

/-- How the protected block ended: normally or with an exception. -/
inductive Outcome where
  | normal
  | raised (e : Nat)
deriving DecidableEq

/-- The with-statement semantics around a context: when the block ends with
the given outcome, __exit__ runs exactly once; a raised exception is
swallowed only when __exit__ returns a truthy value, otherwise it
propagates after __exit__ completes. -/
def withStmt (c : Context) (out : Outcome) :
    List RollbackEvent × Context × Outcome :=
  let ((tr, c2), ret) := Context_exit c
  (tr, c2, if truthy ret then .normal else out)

/-- Source _Context.is_changed: scan the active captures for an identity
match (rb.target is item) and delegate to the is_changed of that capture;
raise ValueError when nothing matches. -/
def Context_is_changed (c : Context) (item : Obj) : Except PyErr Bool :=
  match c._tracked.find? (fun rbv => rbv.target.id == item.id) with
  | some rbv => .ok rbv.changed
  | none => .error .untrackedObject

/-- Source _Context.is_ref_changed: scan the active reference captures for a
matching name and delegate; raise ValueError when nothing matches. -/
def Context_is_ref_changed (c : Context) (f : Frame) (name : String) :
    Except PyErr Bool :=
  match c._ref_tracked.find? (fun r => r.name == name) with
  | some r => Ref_is_changed r f
  | none => .error .untrackedRef

/-- Source _Context.track_ref: construct a _Ref on the frame of the caller and
append it; when _Ref.__init__ raises, the append is never reached. -/
def Context_track_ref (c : Context) (f : Frame) (name : String) :
    Except PyErr Context :=
  match Ref_mk f name with
  | .ok r => .ok { c with _ref_tracked := c._ref_tracked ++ [r] }
  | .error e => .error e

/-- _IRollbackable.track on a _List capture: read the snapshot via get_state;
the pair returns the snapshot and the target as track leaves it. -/
def List_track (target : List Val) : List Val × List Val :=
  (List_get_state target, target)

/-- _IRollbackable.track on a _GenericContainer capture. -/
def GenericContainer_track (target : AttrMap) : AttrMap × AttrMap :=
  (GenericContainer_get_state target, target)

/-- _IRollbackable.track on a _GenericContainer capture of a set. -/
def Set_track (target : List Val) : List Val × List Val :=
  (Set_get_state target, target)

/-- _IRollbackable.track on a _DataClass capture. -/
def DataClass_track (fields : List String) (target : AttrMap) :
    AttrMap × AttrMap :=
  (DataClass_get_state fields target, target)

/-- _IRollbackable.track on a _Slots capture. -/
def Slots_track (attrs : List String) (target : AttrMap) :
    AttrMap × AttrMap :=
  (Slots_get_state attrs target, target)

/-- _IRollbackable.track on a _State capture. -/
def State_track (target : StateObj) : Val × StateObj :=
  (State_get_state target, target)

/-- _RollbackableProxy.track on an attribute-bag object delegates to the
wrapped _GenericContainer over the attribute dictionary. -/
def RollbackableProxy_track (target : BagObj) : AttrMap × BagObj :=
  (RollbackableProxy_get_state target, target)

/-- The selection algorithm as the (amended) specification words it: first the
immutable-kinds check on the exact type; then the exact-type registry (list
to the sequence-container variant; set, dict, defaultdict to the mapping/set
variant); then the structural predicates in declaration order, effectively
data-record, then mapping/set-container, then state-object, since the other
variants have no structural predicate; then wrap a per-instance attribute
dictionary; otherwise, when the target has no attribute dictionary at all,
capture per declared slot over the (possibly empty) slot union; the
unknown-type error is raised exactly when the attribute-storage probe yields
a non-dictionary mapping. -/
def dispatchSpec (item : PyItem) : TrackDecision :=
  if item.cls = .pybool ∨ item.cls = .pyint ∨ item.cls = .pyfloat ∨
      item.cls = .pycomplex ∨ item.cls = .pydecimal ∨ item.cls = .pystr ∨
      item.cls = .pytuple ∨ item.cls = .pyfrozenset then
    .errImmutable
  else if item.cls = .pylist then .selected (.fromRegistry .rbList)
  else if item.cls = .pyset ∨ item.cls = .pydict ∨ item.cls = .pydefaultdict
    then .selected (.fromRegistry .rbGenericContainer)
  else if item.is_dataclass then .selected (.fromProto .rbDataClass)
  else if item.hasCopy && item.hasClear && item.hasUpdate then
    .selected (.fromProto .rbGenericContainer)
  else if item.hasGetState && item.hasFromState then
    .selected (.fromProto .rbState)
  else
    match item.varsRes with
    | .hasDict d => .selected (.proxyDict d)
    | .noDict => .selected (.slots (_get_slots_attrs item.mroSlots))
    | .mappingProxy => .errUnknownType

/-- C3: the strategy selection of track follows the claimed order (immutable check,
exact-type registry, structural predicates in declaration order, attribute
dictionary wrap, per-slot capture, unknown-type error), as amended: the
per-slot fallback applies to every target without an attribute dictionary,
even one with an empty slot union, and the unknown-type error fires exactly
when the attribute probe yields a non-dictionary mapping. -/
theorem track_selection_order (item : PyItem) :
    Context_track_select item = dispatchSpec item := by
  obtain ⟨cls, dcl, hco, hcl, hup, hgs, hfs, vr, ms⟩ := item
  cases cls <;>
    first
      | rfl
      | (cases dcl <;> cases hco <;> cases hcl <;> cases hup <;> cases hgs <;>
          cases hfs <;> cases vr <;> rfl)

/-- C3 counterexample to the claim as stated: a plain object with no
per-instance attribute dictionary and no declared slots anywhere in its
ancestor chain (it matches no variant, has no attribute dictionary and no
slot-based attribute storage) is not rejected: track selects the slots
strategy with an empty slot union instead of raising the unsupported-target
error. -/
theorem track_accepts_slotless_object :
    Context_track_select
        { cls := .pyobject, is_dataclass := false, hasCopy := false,
          hasClear := false, hasUpdate := false, hasGetState := false,
          hasFromState := false, varsRes := .noDict, mroSlots := [] }
      = .selected (.slots [])
    ∧ _get_slots_attrs [] = [] := by
  exact ⟨rfl, rfl⟩

theorem alookup_getAttrStateBy (m : AttrMap) (x : String) :
    ∀ names : List String,
      alookup (getAttrStateBy names m) x =
        if x ∈ names then alookup m x else none := by
  intro names
  induction names with
  | nil => simp [getAttrStateBy, alookup]
  | cons a rest ih =>
    by_cases hxa : x = a
    · subst hxa
      cases h : alookup m x with
      | some v =>
        rw [show getAttrStateBy (x :: rest) m = (x, v) :: getAttrStateBy rest m
            from by simp [getAttrStateBy, h]]
        simp [alookup, h]
      | none =>
        rw [show getAttrStateBy (x :: rest) m = getAttrStateBy rest m
            from by simp [getAttrStateBy, h], ih]
        by_cases hxr : x ∈ rest <;> simp [hxr, h]
    · have hstep : alookup (getAttrStateBy (a :: rest) m) x
        = alookup (getAttrStateBy rest m) x := by
        cases h : alookup m a with
        | some v =>
          rw [show getAttrStateBy (a :: rest) m
              = (a, v) :: getAttrStateBy rest m from by simp [getAttrStateBy, h]]
          simp [alookup, hxa]
        | none =>
          rw [show getAttrStateBy (a :: rest) m = getAttrStateBy rest m
              from by simp [getAttrStateBy, h]]
      rw [hstep, ih]
      by_cases hxr : x ∈ rest
      · rw [if_pos hxr, if_pos (List.mem_cons_of_mem _ hxr)]
      · rw [if_neg hxr, if_neg (by simp [List.mem_cons, hxa, hxr])]

theorem alookup_restoreAttrsBy_not_mem (state : AttrMap) (x : String) :
    ∀ (names : List String) (cur : AttrMap), x ∉ names →
      alookup (restoreAttrsBy names state cur) x = alookup cur x := by
  intro names
  induction names with
  | nil => intro cur _; rfl
  | cons a rest ih =>
    intro cur hx
    have hxa : x ≠ a := fun h => hx (h ▸ List.mem_cons_self _ _)
    have hxr : x ∉ rest := fun h => hx (List.mem_cons_of_mem _ h)
    cases h : alookup state a with
    | some v =>
      rw [show restoreAttrsBy (a :: rest) state cur
          = restoreAttrsBy rest state (aset cur a v)
          from by simp [restoreAttrsBy, h]]
      rw [ih _ hxr, alookup_aset, if_neg hxa]
    | none =>
      cases hc : (alookup cur a).isSome with
      | true =>
        rw [show restoreAttrsBy (a :: rest) state cur
            = restoreAttrsBy rest state (adel cur a)
            from by simp [restoreAttrsBy, h, hc]]
        rw [ih _ hxr, alookup_adel, if_neg hxa]
      | false =>
        rw [show restoreAttrsBy (a :: rest) state cur
            = restoreAttrsBy rest state cur
            from by simp [restoreAttrsBy, h, hc]]
        exact ih _ hxr

theorem alookup_restoreAttrsBy_mem (state : AttrMap) (x : String) :
    ∀ (names : List String) (cur : AttrMap), x ∈ names →
      alookup (restoreAttrsBy names state cur) x = alookup state x := by
  intro names
  induction names with
  | nil => intro cur hx; cases hx
  | cons a rest ih =>
    intro cur hx
    by_cases hxr : x ∈ rest
    · cases h : alookup state a with
      | some v =>
        rw [show restoreAttrsBy (a :: rest) state cur
            = restoreAttrsBy rest state (aset cur a v)
            from by simp [restoreAttrsBy, h]]
        exact ih _ hxr
      | none =>
        cases hc : (alookup cur a).isSome with
        | true =>
          rw [show restoreAttrsBy (a :: rest) state cur
              = restoreAttrsBy rest state (adel cur a)
              from by simp [restoreAttrsBy, h, hc]]
          exact ih _ hxr
        | false =>
          rw [show restoreAttrsBy (a :: rest) state cur
              = restoreAttrsBy rest state cur
              from by simp [restoreAttrsBy, h, hc]]
          exact ih _ hxr
    · have hxa : x = a := by
        rcases List.mem_cons.mp hx with h1 | h1
        · exact h1
        · exact absurd h1 hxr
      subst hxa
      cases h : alookup state x with
      | some v =>
        rw [show restoreAttrsBy (x :: rest) state cur
            = restoreAttrsBy rest state (aset cur x v)
            from by simp [restoreAttrsBy, h]]
        rw [alookup_restoreAttrsBy_not_mem state x rest _ hxr, alookup_aset,
          if_pos rfl]
      | none =>
        cases hc : (alookup cur x).isSome with
        | true =>
          rw [show restoreAttrsBy (x :: rest) state cur
              = restoreAttrsBy rest state (adel cur x)
              from by simp [restoreAttrsBy, h, hc]]
          rw [alookup_restoreAttrsBy_not_mem state x rest _ hxr, alookup_adel,
            if_pos rfl]
        | false =>
          rw [show restoreAttrsBy (x :: rest) state cur
              = restoreAttrsBy rest state cur
              from by simp [restoreAttrsBy, h, hc]]
          rw [alookup_restoreAttrsBy_not_mem state x rest _ hxr]
          exact Option.not_isSome_iff_eq_none.mp (by simp [hc])

/-- C1: round-trip restore.  For every supported variant, whatever the state
of the target at rollback time (any sequence of in-place mutations), rolling
back restores exactly the observable state captured at tracking time: full
contents for lists and sets, the key-to-value map for dicts and for the
wrapped attribute dictionary of an attribute-bag target, the per-field map
for data-record targets, the per-slot map for slotted targets (a slot absent
at capture is deleted again), and the exported state for state-protocol
targets. -/
theorem round_trip_restore
    (l0 l1 : List Val) (s0 s1 : List Val)
    (d0 d1 : AttrMap) (hd0 : nodupKeys d0 = true)
    (fields : List String) (r0 r1 : AttrMap)
    (hr0 : onlyKeys fields r0 = true) (hr1 : onlyKeys fields r1 = true)
    (b0 b1 : AttrMap) (hb0 : nodupKeys b0 = true)
    (attrs : List String) (o0 o1 : AttrMap)
    (ho0 : onlyKeys attrs o0 = true) (ho1 : onlyKeys attrs o1 = true)
    (v0 v1 : Val) :
    List_rollback (List_get_state l0) l1 = l0
    ∧ (∀ x, x ∈ Set_rollback (Set_get_state s0) s1 ↔ x ∈ s0)
    ∧ (∀ k, alookup (GenericContainer_rollback
        (GenericContainer_get_state d0) d1) k = alookup d0 k)
    ∧ (∀ k, alookup (DataClass_rollback fields
        (DataClass_get_state fields r0) r1) k = alookup r0 k)
    ∧ (∀ k, alookup (RollbackableProxy_rollback
        (RollbackableProxy_get_state { attrs := b0, eqAlways := false })
        { attrs := b1, eqAlways := false }).attrs k = alookup b0 k)
    ∧ (∀ a, alookup (Slots_rollback attrs
        (Slots_get_state attrs o0) o1) a = alookup o0 a)
    ∧ State_rollback (State_get_state { exported := v0 })
        { exported := v1 } = { exported := v0 } := by
  have hgc : ∀ (m : AttrMap), nodupKeys m = true → ∀ k,
      alookup (aupdate [] m) k = alookup m k := by
    intro m hm k
    rw [alookup_aupdate m (of_decide_eq_true hm)]
    by_cases h : k ∈ akeys m
    · rw [if_pos h]
    · rw [if_neg h, alookup_eq_none_of_not_mem_akeys m k h]
      rfl
  have hattr : ∀ (names : List String) (m0 m1 : AttrMap),
      onlyKeys names m0 = true → onlyKeys names m1 = true → ∀ k,
      alookup (restoreAttrsBy names (getAttrStateBy names m0) m1) k
        = alookup m0 k := by
    intro names m0 m1 h0 h1 k
    by_cases hk : k ∈ names
    · rw [alookup_restoreAttrsBy_mem _ _ _ _ hk, alookup_getAttrStateBy,
        if_pos hk]
    · rw [alookup_restoreAttrsBy_not_mem _ _ _ _ hk,
        onlyKeys_alookup names m1 h1 k hk, onlyKeys_alookup names m0 h0 k hk]
  refine ⟨rfl, ?_, hgc d0 hd0, hattr fields r0 r1 hr0 hr1,
    hgc b0 hb0, hattr attrs o0 o1 ho0 ho1, rfl⟩
  intro x
  rw [show Set_rollback (Set_get_state s0) s1 = supdate [] s0 from rfl,
    mem_supdate]
  simp

/-- C1 witness: the concrete scenarios, including the slotted target with
slots (a, b), a bound to 1 and b unset at capture, mutated to a = 2, b = 3
inside the scope: rollback makes a = 1 again and deletes b. -/
theorem round_trip_restore_witness :
    alookup (Slots_rollback ["a", "b"]
        (Slots_get_state ["a", "b"] [("a", (1 : Val))])
        [("a", 2), ("b", 3)]) "a" = some 1
    ∧ alookup (Slots_rollback ["a", "b"]
        (Slots_get_state ["a", "b"] [("a", (1 : Val))])
        [("a", 2), ("b", 3)]) "b" = none
    ∧ List_rollback (List_get_state [1, 2, 3]) [1, 2, 3, 5] = [1, 2, 3]
    ∧ alookup (GenericContainer_rollback
        (GenericContainer_get_state [("k1", (2 : Val))])
        [("k1", 2), ("k3", 4)]) "k1" = some 2 := by
  have h := round_trip_restore [1, 2, 3] [1, 2, 3, 5] [1, 2] [1, 2, 15]
    [("k1", 2)] [("k1", 2), ("k3", 4)] (by decide)
    ["f1", "f2", "f3"] [("f1", 1), ("f2", 2), ("f3", 3)]
    [("f1", 6), ("f2", 2), ("f3", 3)] (by decide) (by decide)
    [("a", 1)] [("a", 2)] (by decide)
    ["a", "b"] [("a", 1)] [("a", 2), ("b", 3)] (by decide) (by decide) 1 2
  exact ⟨(h.2.2.2.2.2.1 "a").trans (by decide),
    (h.2.2.2.2.2.1 "b").trans (by decide), h.1,
    (h.2.2.1 "k1").trans (by decide)⟩

/-- C2: exiting the scope, normally or with an exception, performs exactly
the restores of one rollback call (every capture once, in reverse tracking
order, then every reference capture once, in reverse tracking order), leaves
the context drained, and hands the outcome of the block through unchanged:
the exit handler returns None, which is falsy, so a raised exception always
propagates after rollback completes. -/
theorem exit_always_rolls_back_once_and_propagates (c : Context)
    (out : Outcome) :
    withStmt c out =
      (c._tracked.reverse.map .rb ++ c._ref_tracked.reverse.map .ref,
        { _tracked := [], _ref_tracked := [] }, out) := by
  show (_, _, if truthy none then Outcome.normal else out) = _
  rw [show truthy none = false from rfl]
  show ((drain c._tracked).map RollbackEvent.rb
      ++ (drain c._ref_tracked).map RollbackEvent.ref, _, _) = _
  rw [drain_eq_reverse, drain_eq_reverse]
  simp

/-- C5: rollback drains and restores every active capture in strict reverse
tracking order, then every active reference capture in reverse tracking
order, and leaves both lists empty, so a second rollback performs no restore
at all and does not fail. -/
theorem rollback_reverse_order_and_idempotent (c : Context) :
    (Context_rollback c).1 =
        c._tracked.reverse.map .rb ++ c._ref_tracked.reverse.map .ref
    ∧ (Context_rollback c).2 = { _tracked := [], _ref_tracked := [] }
    ∧ Context_rollback (Context_rollback c).2 =
        ([], { _tracked := [], _ref_tracked := [] }) := by
  refine ⟨?_, rfl, rfl⟩
  show (drain c._tracked).map RollbackEvent.rb
      ++ (drain c._ref_tracked).map RollbackEvent.ref = _
  rw [drain_eq_reverse, drain_eq_reverse]

/-- C4: change detection is equality of the captured state with freshly
recomputed state under the variant state extraction, never object identity:
it is false immediately after tracking, true exactly when the recomputed
state differs in value, and false again when a mutation is manually undone;
for attribute-bag and slotted targets the comparison is over the captured
attribute mapping, so an overridden equality method on the target itself is
never consulted. -/
theorem is_changed_tracks_state_equality :
    (∀ l : List Val, List_is_changed (List_get_state l) l = false)
    ∧ (∀ s : List Val, Set_is_changed (Set_get_state s) s = false)
    ∧ (∀ d : AttrMap,
        GenericContainer_is_changed (GenericContainer_get_state d) d = false)
    ∧ (∀ (fields : List String) (r : AttrMap),
        DataClass_is_changed fields (DataClass_get_state fields r) r = false)
    ∧ (∀ (attrs : List String) (o : AttrMap),
        Slots_is_changed attrs (Slots_get_state attrs o) o = false)
    ∧ (∀ st : StateObj, State_is_changed (State_get_state st) st = false)
    ∧ (∀ b : BagObj,
        RollbackableProxy_is_changed (RollbackableProxy_get_state b) b = false)
    ∧ (∀ l l1 : List Val, l ≠ l1 →
        List_is_changed (List_get_state l) l1 = true)
    ∧ (∀ d d1 : AttrMap, aeq d d1 = false →
        GenericContainer_is_changed (GenericContainer_get_state d) d1 = true)
    ∧ (∀ (attrs : List String) (o o1 : AttrMap),
        aeq (Slots_get_state attrs o) (Slots_get_state attrs o1) = false →
        Slots_is_changed attrs (Slots_get_state attrs o) o1 = true)
    ∧ (∀ st st2 : StateObj, st.exported ≠ st2.exported →
        State_is_changed (State_get_state st) st2 = true)
    ∧ (∀ d d2 : AttrMap, aeq d d2 = true →
        GenericContainer_is_changed (GenericContainer_get_state d) d2 = false)
    ∧ (∀ l l2 : List Val, l = l2 →
        List_is_changed (List_get_state l) l2 = false)
    ∧ (∀ (state : AttrMap) (b : BagObj),
        RollbackableProxy_is_changed state b
          = RollbackableProxy_is_changed state
              { attrs := b.attrs, eqAlways := !b.eqAlways })
    ∧ (∀ (attrs : List String) (state : AttrMap) (so : SlotObj),
        Slots_is_changed_on attrs state so
          = Slots_is_changed_on attrs state
              { storage := so.storage, eqAlways := !so.eqAlways })
    ∧ (∀ b0 b1 : BagObj, BagObj_py_eq b0 b1 = true →
        aeq b0.attrs b1.attrs = false →
        RollbackableProxy_is_changed (RollbackableProxy_get_state b0) b1
          = true) := by
  have hset : ∀ s : List Val, seteq s s = true := by
    intro s
    simp [seteq, List.all_eq_true]
  refine ⟨?_, ?_, ?_, ?_, ?_, ?_, ?_, ?_, ?_, ?_, ?_, ?_, ?_, ?_, ?_, ?_⟩
  · intro l; simp [List_is_changed, List_get_state]
  · intro s; simp [Set_is_changed, Set_get_state, hset]
  · intro d
    simp [GenericContainer_is_changed, GenericContainer_get_state, aeq_refl]
  · intro fields r
    simp [DataClass_is_changed, DataClass_get_state, aeq_refl]
  · intro attrs o
    simp [Slots_is_changed, Slots_get_state, aeq_refl]
  · intro st; simp [State_is_changed, State_get_state]
  · intro b
    simp [RollbackableProxy_is_changed, RollbackableProxy_get_state,
      GenericContainer_is_changed, GenericContainer_get_state, aeq_refl]
  · intro l l1 h; simp [List_is_changed, List_get_state, h]
  · intro d d1 h
    simp [GenericContainer_is_changed, GenericContainer_get_state, h]
  · intro attrs o o1 h
    simp [Slots_is_changed, Slots_get_state] at h ⊢
    simp [h]
  · intro st st2 h
    simp [State_is_changed, State_get_state]
    intro hc
    exact absurd hc h
  · intro d d2 h
    simp [GenericContainer_is_changed, GenericContainer_get_state, h]
  · intro l l2 h; simp [List_is_changed, List_get_state, h]
  · intro state b; rfl
  · intro attrs state so; rfl
  · intro b0 b1 hpe hne
    simp [RollbackableProxy_is_changed, RollbackableProxy_get_state,
      GenericContainer_is_changed, GenericContainer_get_state, hne]

/-- C4 witness: a tracked list is unchanged right after capture, changed
after an append, and an attribute-bag object whose own equality claims
everything equal is still reported changed, because only the attribute
dictionaries are compared. -/
theorem is_changed_tracks_state_equality_witness :
    List_is_changed (List_get_state [1, 2, 3]) [1, 2, 3] = false
    ∧ List_is_changed (List_get_state [1, 2, 3]) [1, 2, 3, 5] = true
    ∧ BagObj_py_eq { attrs := [("a", 1)], eqAlways := true }
        { attrs := [("a", 2)], eqAlways := true } = true
    ∧ RollbackableProxy_is_changed
        (RollbackableProxy_get_state { attrs := [("a", 1)], eqAlways := true })
        { attrs := [("a", 2)], eqAlways := true } = true := by
  obtain ⟨h1, _, _, _, _, _, _, h8, _, _, _, _, _, _, _, h16⟩ :=
    is_changed_tracks_state_equality
  exact ⟨h1 [1, 2, 3], h8 [1, 2, 3] [1, 2, 3, 5] (by decide), by decide,
    h16 { attrs := [("a", 1)], eqAlways := true }
      { attrs := [("a", 2)], eqAlways := true } (by decide) (by decide)⟩

/-- C6: the immutable-target error is raised exactly when the exact type of
the item is one of the eight immutable kinds (bool, int, float, complex,
Decimal, str, tuple, frozenset); a user-defined subclass of such a kind is a
different exact type, is never a member of the immutable set, and proceeds
to normal strategy dispatch. -/
theorem immutable_policy_exact_type :
    (∀ item : PyItem,
      Context_track_select item = .errImmutable ↔ item.cls ∈ _Immutable)
    ∧ (∀ (n : String) (b : PyTy), (PyTy.pycls n b ∈ _Immutable) ↔ False) := by
  constructor
  · intro item
    constructor
    · intro hsel
      by_cases hmem : item.cls ∈ _Immutable
      · exact hmem
      · exfalso
        rw [Context_track_select, if_neg hmem] at hsel
        cases htm : type_map item.cls with
        | some c => rw [htm] at hsel; exact absurd hsel (by simp)
        | none =>
          rw [htm] at hsel
          cases hf : all_subclass.find? (fun c => has_proto c item) with
          | some c => rw [hf] at hsel; exact absurd hsel (by simp)
          | none =>
            rw [hf] at hsel
            cases hv : item.varsRes <;> rw [hv] at hsel <;>
              exact absurd hsel (by simp)
    · intro hmem
      rw [Context_track_select, if_pos hmem]
  · intro n b
    simp [_Immutable]

/-- C6 witness: an int target is rejected as immutable, while an instance of
a subclass of int (here one carrying its own attribute dictionary) is not
rejected by the immutable check and is dispatched normally. -/
theorem immutable_policy_exact_type_witness :
    Context_track_select
        { cls := .pyint, is_dataclass := false, hasCopy := false,
          hasClear := false, hasUpdate := false, hasGetState := false,
          hasFromState := false, varsRes := .noDict, mroSlots := [] }
      = .errImmutable
    ∧ Context_track_select
        { cls := .pycls "MyInt" .pyint, is_dataclass := false,
          hasCopy := false, hasClear := false, hasUpdate := false,
          hasGetState := false, hasFromState := false,
          varsRes := .hasDict [("value", 2)], mroSlots := [] }
      = .selected (.proxyDict [("value", 2)]) := by
  have h := immutable_policy_exact_type
  exact ⟨(h.1 _).mpr (by decide), by decide⟩

/-- C7: named-reference tracking works on binding identity: is_ref_changed
answers false while the name is bound to the very object captured at start
(mutating that object in place never rebinds it), answers true as soon as
the name is bound to any object with a different identity (even one equal in
content), and rollback writes the original identity itself back into the
resolved scope, not a copy. -/
theorem ref_tracking_is_binding_identity (r : Ref) (f : Frame) (v : Nat) :
    (alookup (Ref_d r f) r.name = some r.state →
      Ref_is_changed r f = .ok false)
    ∧ (alookup (Ref_d r f) r.name = some v → v ≠ r.state →
      Ref_is_changed r f = .ok true)
    ∧ alookup (Ref_d r (Ref_rollback r f)) r.name = some r.state := by
  refine ⟨?_, ?_, ?_⟩
  · intro h
    rw [Ref_is_changed, h]
    simp
  · intro h hne
    rw [Ref_is_changed, h]
    simp [hne]
  · cases hl : r.in_local <;>
      simp [Ref_d, Ref_rollback, hl, alookup_aset]

/-- C7 witness: a local name bound to object id 5 is unchanged while still
bound to id 5, changed once rebound to id 7, and rollback rebinds it to the
original id 5. -/
theorem ref_tracking_is_binding_identity_witness :
    Ref_is_changed { name := "a", state := 5, in_local := true }
        { varnames := ["a"], freevars := [], f_locals := [("a", 5)],
          f_globals := [] } = .ok false
    ∧ Ref_is_changed { name := "a", state := 5, in_local := true }
        { varnames := ["a"], freevars := [], f_locals := [("a", 7)],
          f_globals := [] } = .ok true
    ∧ alookup (Ref_d { name := "a", state := 5, in_local := true }
        (Ref_rollback { name := "a", state := 5, in_local := true }
          { varnames := ["a"], freevars := [], f_locals := [("a", 7)],
            f_globals := [] })) "a" = some 5 := by
  have h1 := ref_tracking_is_binding_identity
    { name := "a", state := 5, in_local := true }
    { varnames := ["a"], freevars := [], f_locals := [("a", 5)],
      f_globals := [] } 7
  have h2 := ref_tracking_is_binding_identity
    { name := "a", state := 5, in_local := true }
    { varnames := ["a"], freevars := [], f_locals := [("a", 7)],
      f_globals := [] } 7
  exact ⟨h1.1 (by decide), h2.2.1 (by decide) (by decide), h2.2.2⟩

/-- C8: is_changed raises the untracked-object error for any item whose
identity matches no active capture (content-equal but distinct objects do
not match), is_ref_changed raises the untracked-reference error for any name
with no active reference capture, and after a completed rollback both lists
are drained, so every query raises. -/
theorem untracked_lookup_raises (c : Context) (item : Obj) (f : Frame)
    (name : String) :
    ((∀ t ∈ c._tracked, t.target.id ≠ item.id) →
      Context_is_changed c item = .error .untrackedObject)
    ∧ ((∀ r ∈ c._ref_tracked, r.name ≠ name) →
      Context_is_ref_changed c f name = .error .untrackedRef)
    ∧ Context_is_changed (Context_rollback c).2 item
        = .error .untrackedObject
    ∧ Context_is_ref_changed (Context_rollback c).2 f name
        = .error .untrackedRef := by
  refine ⟨?_, ?_, rfl, rfl⟩
  · intro h
    have hf : c._tracked.find? (fun rbv => rbv.target.id == item.id)
        = none := by
      rw [List.find?_eq_none]
      intro t ht
      simpa using h t ht
    rw [Context_is_changed, hf]
  · intro h
    have hf : c._ref_tracked.find? (fun r => r.name == name) = none := by
      rw [List.find?_eq_none]
      intro r hr
      simpa using h r hr
    rw [Context_is_ref_changed, hf]

/-- C8 witness: with one capture of the object with id 1 and content 5 and
one reference capture of name a, querying a distinct object with equal
content (id 2, content 5) raises, and querying name b raises. -/
theorem untracked_lookup_raises_witness :
    Context_is_changed ⟨[⟨⟨1, 5⟩, false⟩], [⟨"a", 5, true⟩]⟩ ⟨2, 5⟩
        = .error .untrackedObject
    ∧ Context_is_ref_changed ⟨[⟨⟨1, 5⟩, false⟩], [⟨"a", 5, true⟩]⟩
        ⟨[], [], [], []⟩ "b" = .error .untrackedRef := by
  have h := untracked_lookup_raises
    ⟨[⟨⟨1, 5⟩, false⟩], [⟨"a", 5, true⟩]⟩ ⟨2, 5⟩ ⟨[], [], [], []⟩ "b"
  exact ⟨h.1 (by decide), h.2.1 (by decide)⟩

/-- C9: capture is observation-only: for every built-in variant, track reads
the snapshot (a copy of the container, or the attribute and field values)
and leaves the target exactly as it was. -/
theorem track_is_observation_only :
    (∀ l : List Val, (List_track l).2 = l)
    ∧ (∀ d : AttrMap, (GenericContainer_track d).2 = d)
    ∧ (∀ s : List Val, (Set_track s).2 = s)
    ∧ (∀ (fields : List String) (r : AttrMap),
        (DataClass_track fields r).2 = r)
    ∧ (∀ (attrs : List String) (o : AttrMap), (Slots_track attrs o).2 = o)
    ∧ (∀ st : StateObj, (State_track st).2 = st)
    ∧ (∀ b : BagObj, (RollbackableProxy_track b).2 = b) := by
  exact ⟨fun _ => rfl, fun _ => rfl, fun _ => rfl, fun _ _ => rfl,
    fun _ _ => rfl, fun _ => rfl, fun _ => rfl⟩

/-- C10: track_ref on a name that is neither bound in the local scope of the
targeted frame nor present in its globals raises the KeyError inside the
reference-capture constructor, before the protected block runs, and no
reference capture is recorded (the append is never reached, so track_ref
yields only the error). -/
theorem track_ref_unresolvable_raises (c : Context) (f : Frame)
    (name : String) (hl : alookup f.f_locals name = none)
    (hg : alookup f.f_globals name = none) :
    Ref_mk f name = .error .keyError
    ∧ Context_track_ref c f name = .error .keyError := by
  have hmk : Ref_mk f name = .error .keyError := by
    rw [Ref_mk]
    by_cases hloc : name ∈ f.varnames ++ f.freevars
    · simp [hloc, hl]
    · simp [hloc, hg]
  refine ⟨hmk, ?_⟩
  rw [Context_track_ref, hmk]

/-- C10 witness: the name y is not a bound local of the frame and is absent
from its globals, so tracking it by reference fails with the KeyError and no
reference capture is added. -/
theorem track_ref_unresolvable_raises_witness :
    Ref_mk ⟨["x"], [], [("x", 1)], [("g", 2)]⟩ "y" = .error .keyError
    ∧ Context_track_ref ⟨[], []⟩ ⟨["x"], [], [("x", 1)], [("g", 2)]⟩ "y"
        = .error .keyError := by
  exact track_ref_unresolvable_raises ⟨[], []⟩
    ⟨["x"], [], [("x", 1)], [("g", 2)]⟩ "y" (by decide) (by decide)
